import Mathlib

/-!
Shallow embedding of `src/models.py` — graph matching network (GMN) and gated
graph neural network (GGNN) architectures built on a message-passing framework.

Modelling conventions:
* A node-feature matrix of shape `[N, d]` is a function `Fin N → Fin d → ℚ`.
* An `edge_index` tensor of shape `[2, E]` is a `List (Fin N × Fin N)`;
  entry `(j, i)` is one column: `j` is the source node (`edge_index[0]`) and
  `i` the target node (`edge_index[1]`).  The framework's default flow is
  `source_to_target`, so `x_j = x[edge_index[0]]`, `x_i = x[edge_index[1]]`,
  and messages are aggregated at `edge_index[1]`.
* An edge-weight tensor of shape `[E, d]` is a `List (Fin d → ℚ)` aligned with
  the edge list; the Python value `None` becomes `Option.none`.
* The numeric primitives of the framework (`exp` inside `F.softmax`,
  `sigmoid`, `tanh`) are abstract parameters collected in `Act`; theorems that
  need positivity of `exp` take it as a hypothesis.
-/

namespace Models

/-- Abstract activation primitives supplied by the tensor framework. -/
structure Act where
  exp : ℚ → ℚ
  sigmoid : ℚ → ℚ
  tanh : ℚ → ℚ

/-- Scalar `F.relu`. -/
def relu (x : ℚ) : ℚ := max x 0

/-- An affine layer `nn.Linear`: `out k = (W x) k + b k`. -/
def linear (W : Fin dOut → Fin dIn → ℚ) (b : Fin dOut → ℚ)
    (v : Fin dIn → ℚ) : Fin dOut → ℚ :=
  fun k => (∑ t, W k t * v t) + b k

/-- Parameters of a `torch.nn.GRUCell (dIn, dHid, bias=True)`. -/
structure GRUCellM (dIn dHid : ℕ) where
  wIr : Fin dHid → Fin dIn → ℚ
  wIz : Fin dHid → Fin dIn → ℚ
  wIn : Fin dHid → Fin dIn → ℚ
  wHr : Fin dHid → Fin dHid → ℚ
  wHz : Fin dHid → Fin dHid → ℚ
  wHn : Fin dHid → Fin dHid → ℚ
  bIr : Fin dHid → ℚ
  bIz : Fin dHid → ℚ
  bIn : Fin dHid → ℚ
  bHr : Fin dHid → ℚ
  bHz : Fin dHid → ℚ
  bHn : Fin dHid → ℚ

/-- One application of the GRU cell, with the standard PyTorch semantics:
`r = σ(W_ir x + b_ir + W_hr h + b_hr)`, `z = σ(W_iz x + b_iz + W_hz h + b_hz)`,
`n = tanh(W_in x + b_in + r ⊙ (W_hn h + b_hn))`, `h' = (1 - z) ⊙ n + z ⊙ h`. -/
def GRUCellM.run (c : GRUCellM dIn dHid) (A : Act)
    (x : Fin dIn → ℚ) (h : Fin dHid → ℚ) : Fin dHid → ℚ :=
  let r := fun k => A.sigmoid ((∑ t, c.wIr k t * x t) + c.bIr k +
    (∑ t, c.wHr k t * h t) + c.bHr k)
  let z := fun k => A.sigmoid ((∑ t, c.wIz k t * x t) + c.bIz k +
    (∑ t, c.wHz k t * h t) + c.bHz k)
  let g := fun k => A.tanh ((∑ t, c.wIn k t * x t) + c.bIn k +
    r k * ((∑ t, c.wHn k t * h t) + c.bHn k))
  fun k => (1 - z k) * g k + z k * h k

/-- Learned parameters of `GMNlayer(in_channels = d, out_channels = d)`:
`fmessage = nn.Linear(3*d, d)` and `fnode = GRUCell(2*d, d)`.  The layer is
constructed with `aggr="add"`. -/
structure GMNlayer (d : ℕ) where
  fmessageW : Fin d → Fin (d + d + d) → ℚ
  fmessageB : Fin d → ℚ
  fnode : GRUCellM (d + d) d

/-- The method `GMNlayer.message(x_i, x_j, edge_index, size, edge_weight)`: when
`edge_weight` is `None` it is replaced by an all-ones tensor of the shape of
`x_i`; in both branches the message is
`relu(fmessage(cat([x_i, x_j, edge_weight], dim=1)))`, computed here for one
edge. -/
def GMNlayer.message (l : GMNlayer d) (xi xj : Fin d → ℚ)
    (ew : Option (Fin d → ℚ)) : Fin d → ℚ :=
  match ew with
  | none =>
      let edge_weight : Fin d → ℚ := fun _ => 1
      fun k => relu (linear l.fmessageW l.fmessageB
        (Fin.append (Fin.append xi xj) edge_weight) k)
  | some edge_weight =>
      fun k => relu (linear l.fmessageW l.fmessageB
        (Fin.append (Fin.append xi xj) edge_weight) k)

/-- The call `self.propagate(edge_index, size=(N, N), x=x, edge_weight=edge_weight)`
with `aggr="add"` and the identity `update`: each edge `(j, i)` contributes
`message(x_i, x_j, edge_weight_e)` and the contributions are summed at the
target node `i = edge_index[1]`. -/
def GMNlayer.propagate (l : GMNlayer d) (x : Fin n → Fin d → ℚ)
    (edges : List (Fin n × Fin n)) (ew : Option (List (Fin d → ℚ))) :
    Fin n → Fin d → ℚ :=
  match ew with
  | none => fun i k =>
      (edges.map (fun e => if e.2 = i then l.message (x e.2) (x e.1) none k else 0)).sum
  | some ews => fun i k =>
      ((edges.zip ews).map (fun p =>
        if p.1.2 = i then l.message (x p.1.2) (x p.1.1) (some p.2) k else 0)).sum

/-- The score matrix `scores = torch.mm(x1, x2.t())`, shape `[N1, N2]`. -/
def scoresMat (x1 : Fin n1 → Fin d → ℚ) (x2 : Fin n2 → Fin d → ℚ) :
    Fin n1 → Fin n2 → ℚ :=
  fun i j => ∑ k, x1 i k * x2 j k

/-- The matrix `attn_1 = F.softmax(scores, dim=1)`: a row-wise softmax of the score
matrix, shape `[N1, N2]`. -/
def attn1 (A : Act) (x1 : Fin n1 → Fin d → ℚ) (x2 : Fin n2 → Fin d → ℚ) :
    Fin n1 → Fin n2 → ℚ :=
  fun i j => A.exp (scoresMat x1 x2 i j) / ∑ j', A.exp (scoresMat x1 x2 i j')

/-- The matrix `attn_2 = F.softmax(scores, dim=0).t()`: a column-wise softmax of the
score matrix, transposed, shape `[N2, N1]`. -/
def attn2 (A : Act) (x1 : Fin n1 → Fin d → ℚ) (x2 : Fin n2 → Fin d → ℚ) :
    Fin n2 → Fin n1 → ℚ :=
  fun j i => A.exp (scoresMat x1 x2 i j) / ∑ i', A.exp (scoresMat x1 x2 i' j)

/-- The update term `u1 = x1 - torch.mm(attn_1, x2)`. -/
def u1def (A : Act) (x1 : Fin n1 → Fin d → ℚ) (x2 : Fin n2 → Fin d → ℚ) :
    Fin n1 → Fin d → ℚ :=
  fun i k => x1 i k - ∑ j, attn1 A x1 x2 i j * x2 j k

/-- The update term `u2 = x2 - torch.mm(attn_2, x1)`. -/
def u2def (A : Act) (x1 : Fin n1 → Fin d → ℚ) (x2 : Fin n2 → Fin d → ℚ) :
    Fin n2 → Fin d → ℚ :=
  fun j k => x2 j k - ∑ i, attn2 A x1 x2 j i * x1 i k

/-- The method `GMNlayer.forward(x1, x2, edge_index1, edge_index2, edge_weight1,
edge_weight2)`: one round of message passing on each graph, the cross-graph
attention update, and the GRU node update `h = fnode(cat([m, u], dim=1), x)`
for each graph. -/
def GMNlayer.forward (l : GMNlayer d) (A : Act)
    (x1 : Fin n1 → Fin d → ℚ) (x2 : Fin n2 → Fin d → ℚ)
    (ei1 : List (Fin n1 × Fin n1)) (ei2 : List (Fin n2 × Fin n2))
    (ew1 : Option (List (Fin d → ℚ))) (ew2 : Option (List (Fin d → ℚ))) :
    (Fin n1 → Fin d → ℚ) × (Fin n2 → Fin d → ℚ) :=
  let m1 := l.propagate x1 ei1 ew1
  let m2 := l.propagate x2 ei2 ew2
  let u1 := u1def A x1 x2
  let u2 := u2def A x1 x2
  (fun i => l.fnode.run A (Fin.append (m1 i) (u1 i)) (x1 i),
   fun j => l.fnode.run A (Fin.append (m2 j) (u2 j)) (x2 j))

/-- The method `GMNlayer.match(edge_index_i, x_i, x_j, size_i)`: the body is a bare
`return`, so the Python function unconditionally returns `None` — modelled as
`Option.none` (named `matchFn` because `match` is reserved in Lean). -/
def GMNlayer.matchFn (_edge_index_i : List (Fin n)) (_x_i _x_j : List (Fin d → ℚ))
    (_size_i : ℕ) : Option (List (Fin d → ℚ)) :=
  none

/-- Sum a list of per-edge rows, grouped at their target index (the `scatter`
step of aggregation with `aggr="add"`). -/
def scatterAdd (pairs : List (Fin n × (Fin d → ℚ))) : Fin n → Fin d → ℚ :=
  fun i k => (pairs.map (fun p => if p.1 = i then p.2 k else 0)).sum

/-- The method `GMNlayer.propagate_match(edge_index, size, x=x)` with the introspected
argument lists resolved against the signature of `match`:
`__match_args__ = [x_i, x_j]` are gathered with `index_select` along the edge
columns, the special arguments `edge_index_i` and `size_i` are inserted, then
`out_attn = self.match(...)` is computed, scattered with `aggr="add"` at
`edge_index[i]`, and passed to the identity `update`.  `scatter` applied to
the Python value `None` raises, so the whole call only returns a tensor if
`match` returned one — modelled by `Option.bind`. -/
def GMNlayer.propagate_match (_l : GMNlayer d) (edges : List (Fin n × Fin n))
    (x : Fin n → Fin d → ℚ) : Option (Fin n → Fin d → ℚ) :=
  let edge_index_i := edges.map (fun e => e.2)
  let x_i := edges.map (fun e => x e.2)
  let x_j := edges.map (fun e => x e.1)
  match GMNlayer.matchFn edge_index_i x_i x_j n with
  | none => none
  | some out_attn => some (scatterAdd (edge_index_i.zip out_attn))

/-- Gate score of one node under `mlp_gate = Sequential(Linear(d, 1),
Sigmoid())`. -/
def gateScore (A : Act) (gateW : Fin d → ℚ) (gateB : ℚ) (xi : Fin d → ℚ) : ℚ :=
  A.sigmoid ((∑ k, gateW k * xi k) + gateB)

/-- The pooling layer `GlobalAttention(gate_nn = mlp_gate)`: gate scores are soft-maxed within
each graph of the batch and the node features are summed with those weights,
producing one row per graph. -/
def globalAttention (A : Act) (gateW : Fin d → ℚ) (gateB : ℚ)
    (x : Fin n → Fin d → ℚ) (batch : Fin n → Fin b) : Fin b → Fin d → ℚ :=
  fun g k => ∑ i, if batch i = g then
    (A.exp (gateScore A gateW gateB (x i)) /
      ∑ i', if batch i' = batch i then A.exp (gateScore A gateW gateB (x i')) else 0)
      * x i k
    else 0

/-- Learned parameters of `GMNnet(vocablen, embedding_dim = d, num_layers)`:
a node-token embedding table, an edge-type embedding table of size 20, one
shared `GMNlayer`, and the gated attention pooling layer. -/
structure GMNnet (vocablen d : ℕ) where
  numLayers : ℕ
  embed : Fin vocablen → Fin d → ℚ
  edge_embed : Fin 20 → Fin d → ℚ
  gmnlayer : GMNlayer d
  gateW : Fin d → ℚ
  gateB : ℚ

/-- The `for i in range(self.num_layers)` loop of `GMNnet.forward`: repeatedly
replace `(x1, x2)` by `gmnlayer.forward(x1, x2, ...)`. -/
def GMNnet.loop (net : GMNnet v d) (A : Act)
    (ei1 : List (Fin n1 × Fin n1)) (ei2 : List (Fin n2 × Fin n2))
    (ew1 : Option (List (Fin d → ℚ))) (ew2 : Option (List (Fin d → ℚ))) :
    ℕ → (Fin n1 → Fin d → ℚ) × (Fin n2 → Fin d → ℚ) →
      (Fin n1 → Fin d → ℚ) × (Fin n2 → Fin d → ℚ)
  | 0, s => s
  | k + 1, s =>
      net.loop A ei1 ei2 ew1 ew2 k (net.gmnlayer.forward A s.1 s.2 ei1 ei2 ew1 ew2)

/-- The method `GMNnet.forward(data)` with
`data = (x1, x2, edge_index1, edge_index2, edge_attr1, edge_attr2)`: embed the
node tokens of both graphs, embed the edge attributes when they are not
`None`, run the shared `GMNlayer` for `num_layers` iterations, and pool each
graph with `GlobalAttention` under the all-zeros batch vector. -/
def GMNnet.forward (net : GMNnet v d) (A : Act)
    (x1 : Fin n1 → Fin v) (x2 : Fin n2 → Fin v)
    (ei1 : List (Fin n1 × Fin n1)) (ei2 : List (Fin n2 × Fin n2))
    (ea : Option (List (Fin 20) × List (Fin 20))) :
    (Fin 1 → Fin d → ℚ) × (Fin 1 → Fin d → ℚ) :=
  let h1 := fun i => net.embed (x1 i)
  let h2 := fun j => net.embed (x2 j)
  let ew1 := ea.map (fun p => p.1.map (fun a => net.edge_embed a))
  let ew2 := ea.map (fun p => p.2.map (fun a => net.edge_embed a))
  let h := net.loop A ei1 ei2 ew1 ew2 net.numLayers (h1, h2)
  (globalAttention A net.gateW net.gateB h.1 (fun _ => (0 : Fin 1)),
   globalAttention A net.gateW net.gateB h.2 (fun _ => (0 : Fin 1)))

/-- Parameters of the library layer `GatedGraphConv(out_channels = d,
num_layers)`: one `d × d` weight matrix per step and a `GRUCell(d, d)`. -/
structure GatedGraphConvM (d : ℕ) where
  numLayers : ℕ
  weight : Fin numLayers → Fin d → Fin d → ℚ
  rnn : GRUCellM d d

/-- One step of `GatedGraphConv` (with `edge_weight = None`):
`m = matmul(h, weight[l])`, then messages `m_j` are sum-aggregated at the
target of each edge, then `h = rnn(m, h)`. -/
def GatedGraphConvM.step (c : GatedGraphConvM d) (A : Act)
    (edges : List (Fin n × Fin n)) (h : Fin n → Fin d → ℚ)
    (l : Fin c.numLayers) : Fin n → Fin d → ℚ :=
  let m := fun i t => ∑ s, h i s * c.weight l s t
  let agg := fun i k => (edges.map (fun e => if e.2 = i then m e.1 k else 0)).sum
  fun i => c.rnn.run A (agg i) (h i)

/-- The method `GatedGraphConv.forward(x, edge_index)` (the channel counts are equal so
the zero-padding branch is the identity): run `step` for
`i in range(num_layers)`. -/
def GatedGraphConvM.forward (c : GatedGraphConvM d) (A : Act)
    (x : Fin n → Fin d → ℚ) (edges : List (Fin n × Fin n)) :
    Fin n → Fin d → ℚ :=
  (List.finRange c.numLayers).foldl (c.step A edges) x

/-- Learned parameters of `GGNN(vocablen, embedding_dim = d, num_layers)`. -/
structure GGNN (vocablen d : ℕ) where
  embed : Fin vocablen → Fin d → ℚ
  edge_embed : Fin 20 → Fin d → ℚ
  ggnnlayer : GatedGraphConvM d
  gateW : Fin d → ℚ
  gateB : ℚ

/-- The method `GGNN.forward(data)` with `data = (x, edge_index, edge_attr)`: embed the
node tokens, compute `edge_weight` from `edge_attr` when it is not `None`
(the result is never used), apply the gated graph convolution, and pool with
`GlobalAttention` under the all-zeros batch vector. -/
def GGNN.forward (net : GGNN v d) (A : Act) (x : Fin n → Fin v)
    (ei : List (Fin n × Fin n)) (ea : Option (List (Fin 20))) :
    Fin 1 → Fin d → ℚ :=
  let h := fun i => net.embed (x i)
  let edge_weight := ea.map (fun l => l.map (fun a => net.edge_embed a))
  let h' := net.ggnnlayer.forward A h ei
  globalAttention A net.gateW net.gateB h' (fun _ => (0 : Fin 1))

/-! ### Helper definitions and lemmas -/

/-- A concrete activation assignment (all primitives constantly `1`) used to
evaluate theorems at concrete inputs; its `exp` is everywhere positive. -/
def actOne : Act where
  exp := fun _ => 1
  sigmoid := fun _ => 1
  tanh := fun _ => 1

/-- A concrete one-by-one all-ones feature matrix used to evaluate theorems
at concrete inputs. -/
def oneMat : Fin 1 → Fin 1 → ℚ := fun _ _ => 1

/-- A concrete `GMNlayer` instance (dimension 1) used to evaluate theorems at
concrete inputs. -/
def gmnlayerC : GMNlayer 1 where
  fmessageW := fun _ _ => 1
  fmessageB := fun _ => 0
  fnode := GRUCellM.mk
    (fun _ _ => 0) (fun _ _ => 0) (fun _ _ => 0)
    (fun _ _ => 0) (fun _ _ => 0) (fun _ _ => 0)
    (fun _ => 0) (fun _ => 0) (fun _ => 0)
    (fun _ => 0) (fun _ => 0) (fun _ => 0)

/-- A concrete one-edge self-loop edge list on a one-node graph. -/
def edgesC : List (Fin 1 × Fin 1) := [(0, 0)]

/-- A concrete one-row edge-weight tensor. -/
def ewsC : List (Fin 1 → ℚ) := [fun _ => 2]

/-- Sum of a mapped list as a sum over its index type. -/
theorem listSum_map_fin {α : Type} {M : Type} [AddCommMonoid M]
    (l : List α) (f : α → M) :
    (l.map f).sum = ∑ p : Fin l.length, f (l.get p) := by
  induction l with
  | nil => simp
  | cons a t ih =>
      rw [List.map_cons, List.sum_cons, ih]
      show _ = ∑ p : Fin (t.length + 1), f ((a :: t).get p)
      rw [Fin.sum_univ_succ]
      simp

/-! ### Claim theorems -/

/-- C1: `GMNlayer.forward` performs exactly one round of message passing on
each graph independently (`propagate` over `edge_index1` for graph 1 and
`edge_index2` for graph 2) plus the cross-graph attention-based node update
`h1 = fnode(cat(m1, x1 - attn_1 @ x2), x1)`,
`h2 = fnode(cat(m2, x2 - attn_2 @ x1), x2)`, with the attention computed from
the score matrix `x1 @ x2.t()`, and returns the pair `(h1, h2)`. -/
theorem gmnlayer_forward_one_round (l : GMNlayer d) (A : Act)
    (x1 : Fin n1 → Fin d → ℚ) (x2 : Fin n2 → Fin d → ℚ)
    (ei1 : List (Fin n1 × Fin n1)) (ei2 : List (Fin n2 × Fin n2))
    (ew1 : Option (List (Fin d → ℚ))) (ew2 : Option (List (Fin d → ℚ))) :
    l.forward A x1 x2 ei1 ei2 ew1 ew2 =
      (fun i => l.fnode.run A
        (Fin.append (l.propagate x1 ei1 ew1 i)
          (fun k => x1 i k - ∑ j, attn1 A x1 x2 i j * x2 j k)) (x1 i),
       fun j => l.fnode.run A
        (Fin.append (l.propagate x2 ei2 ew2 j)
          (fun k => x2 j k - ∑ i, attn2 A x1 x2 j i * x1 i k)) (x2 j)) := rfl

/-- C3: `GMNlayer.match` unconditionally returns `None`, so
`GMNlayer.propagate_match` never returns a tensor: the scatter/update success
branch is unreachable for every argument list. -/
theorem propagate_match_never_succeeds (l : GMNlayer d)
    (edges : List (Fin n × Fin n)) (x : Fin n → Fin d → ℚ)
    (eii : List (Fin n)) (xi xj : List (Fin d → ℚ)) (si : ℕ) :
    GMNlayer.matchFn eii xi xj si = none ∧
      l.propagate_match edges x = none :=
  ⟨rfl, rfl⟩

/-- C4: with `scores = x1 @ x2.t()`, `attn_1 = softmax(scores, dim=1)` is an
`[N1, N2]` matrix with non-negative rows each summing to `1` over graph-2
nodes, `attn_2 = softmax(scores, dim=0).t()` is an `[N2, N1]` matrix with
non-negative rows each summing to `1` over graph-1 nodes, and the update
terms are `u1 = x1 - attn_1 @ x2`, `u2 = x2 - attn_2 @ x1`. -/
theorem cross_attention_soft_correspondence (A : Act)
    (he : ∀ q, 0 < A.exp q)
    (x1 : Fin n1 → Fin d → ℚ) (x2 : Fin n2 → Fin d → ℚ)
    (hn1 : 0 < n1) (hn2 : 0 < n2) :
    (∀ i j, 0 ≤ attn1 A x1 x2 i j) ∧
    (∀ i, ∑ j, attn1 A x1 x2 i j = 1) ∧
    (∀ j i, 0 ≤ attn2 A x1 x2 j i) ∧
    (∀ j, ∑ i, attn2 A x1 x2 j i = 1) ∧
    u1def A x1 x2 = (fun i k => x1 i k - ∑ j, attn1 A x1 x2 i j * x2 j k) ∧
    u2def A x1 x2 = (fun j k => x2 j k - ∑ i, attn2 A x1 x2 j i * x1 i k) := by
  have hne1 : Nonempty (Fin n1) := ⟨⟨0, hn1⟩⟩
  have hne2 : Nonempty (Fin n2) := ⟨⟨0, hn2⟩⟩
  refine ⟨?_, ?_, ?_, ?_, rfl, rfl⟩
  · intro i j
    exact div_nonneg (he _).le
      (Finset.sum_nonneg fun j' _ => (he _).le)
  · intro i
    have hpos : 0 < ∑ j', A.exp (scoresMat x1 x2 i j') :=
      Finset.sum_pos (fun j' _ => he _) Finset.univ_nonempty
    simp only [attn1]
    rw [← Finset.sum_div]
    exact div_self hpos.ne'
  · intro j i
    exact div_nonneg (he _).le
      (Finset.sum_nonneg fun i' _ => (he _).le)
  · intro j
    have hpos : 0 < ∑ i', A.exp (scoresMat x1 x2 i' j) :=
      Finset.sum_pos (fun i' _ => he _) Finset.univ_nonempty
    simp only [attn2]
    rw [← Finset.sum_div]
    exact div_self hpos.ne'

/-- Witness for C4 at `n1 = n2 = d = 1`, the all-ones features and the
constant-one `exp`. -/
theorem cross_attention_soft_correspondence_witness :
    (∀ q : ℚ, 0 < actOne.exp q) ∧ 0 < 1 ∧
    ((∀ i j, 0 ≤ attn1 actOne oneMat oneMat i j) ∧
     (∀ i, ∑ j, attn1 actOne oneMat oneMat i j = 1) ∧
     (∀ j i, 0 ≤ attn2 actOne oneMat oneMat j i) ∧
     (∀ j, ∑ i, attn2 actOne oneMat oneMat j i = 1) ∧
     u1def actOne oneMat oneMat =
       (fun i k => oneMat i k - ∑ j, attn1 actOne oneMat oneMat i j * oneMat j k) ∧
     u2def actOne oneMat oneMat =
       (fun j k => oneMat j k - ∑ i, attn2 actOne oneMat oneMat j i * oneMat i k)) :=
  ⟨fun _ => one_pos, one_pos,
    cross_attention_soft_correspondence actOne (fun _ => one_pos)
      oneMat oneMat one_pos one_pos⟩

/-- C5: message passing in `GMNlayer` is a per-edge computation aggregated at
each node: each edge `(j, i)` contributes
`relu(fmessage(cat([x_i, x_j, edge_weight_e], dim=1)))`, computed from that
edge's endpoint features and edge weight, and the contributions of all edges
with target `i` are summed at `i` (the layer's `aggr="add"`); the aggregate is
then the first half of the GRU input (the GRU update itself is stated in
`gmnlayer_forward_one_round`). -/
theorem message_add_aggregation (l : GMNlayer d) (x : Fin n → Fin d → ℚ)
    (edges : List (Fin n × Fin n)) (ews : List (Fin d → ℚ))
    (h : edges.length = ews.length) (i : Fin n) (k : Fin d) :
    l.propagate x edges (some ews) i k =
      ∑ p : Fin edges.length,
        if (edges.get p).2 = i then
          relu ((∑ t, l.fmessageW k t *
            Fin.append (Fin.append (x (edges.get p).2) (x (edges.get p).1))
              (ews.get (Fin.cast h p)) t) + l.fmessageB k)
        else 0 := by
  have hlen : (edges.zip ews).length = edges.length := by
    rw [List.length_zip, h, min_self]
  show ((edges.zip ews).map (fun p =>
      if p.1.2 = i then l.message (x p.1.2) (x p.1.1) (some p.2) k else 0)).sum = _
  rw [listSum_map_fin, ← Fin.sum_congr' _ hlen]
  apply Finset.sum_congr rfl
  intro p _
  simp [List.get_eq_getElem, List.getElem_zip, GMNlayer.message, linear]

/-- Witness for C5 on a one-node graph with a single self-loop edge. -/
theorem message_add_aggregation_witness :
    (edgesC.length = ewsC.length) ∧
    gmnlayerC.propagate oneMat edgesC (some ewsC) 0 0 =
      ∑ p : Fin edgesC.length,
        if (edgesC.get p).2 = 0 then
          relu ((∑ t, gmnlayerC.fmessageW 0 t *
            Fin.append (Fin.append (oneMat (edgesC.get p).2) (oneMat (edgesC.get p).1))
              (ewsC.get (Fin.cast rfl p)) t) + gmnlayerC.fmessageB 0)
        else 0 :=
  ⟨rfl, message_add_aggregation gmnlayerC oneMat edgesC ewsC rfl 0 0⟩

/-- Propagation with `edge_weight = None` agrees with propagation where every
edge carries the all-ones weight row. -/
theorem propagate_none_eq_ones (l : GMNlayer d) (x : Fin n → Fin d → ℚ)
    (edges : List (Fin n × Fin n)) :
    l.propagate x edges none =
      l.propagate x edges (some (List.replicate edges.length (fun _ => 1))) := by
  funext i k
  show (edges.map (fun e => if e.2 = i then l.message (x e.2) (x e.1) none k else 0)).sum
      = ((edges.zip (List.replicate edges.length (fun _ => 1))).map (fun p =>
          if p.1.2 = i then l.message (x p.1.2) (x p.1.1) (some p.2) k else 0)).sum
  induction edges with
  | nil => rfl
  | cons e t ih =>
      simp only [List.length_cons, List.replicate_succ, List.zip_cons_cons,
        List.map_cons, List.sum_cons]
      rw [ih]
      rfl

/-- C9: `GMNlayer.message` with `edge_weight = None` returns exactly the
message computed with the all-ones weight (both branches of the `None` test
are the same expression), and consequently `GMNlayer.forward` with
`edge_weight1 = edge_weight2 = None` equals `GMNlayer.forward` with all-ones
`[E, d]` edge-weight tensors. -/
theorem message_none_is_all_ones (l : GMNlayer d) (A : Act)
    (xi xj : Fin d → ℚ)
    (x1 : Fin n1 → Fin d → ℚ) (x2 : Fin n2 → Fin d → ℚ)
    (ei1 : List (Fin n1 × Fin n1)) (ei2 : List (Fin n2 × Fin n2)) :
    l.message xi xj none = l.message xi xj (some (fun _ => 1)) ∧
    l.forward A x1 x2 ei1 ei2 none none =
      l.forward A x1 x2 ei1 ei2
        (some (List.replicate ei1.length (fun _ => 1)))
        (some (List.replicate ei2.length (fun _ => 1))) := by
  constructor
  · rfl
  · simp only [GMNlayer.forward]
    rw [propagate_none_eq_ones, propagate_none_eq_ones]

/-- The `for`-loop of `GMNnet.forward` is the `k`-fold iterate of the shared
layer's forward step. -/
theorem loop_eq_iterate (net : GMNnet v d) (A : Act)
    (ei1 : List (Fin n1 × Fin n1)) (ei2 : List (Fin n2 × Fin n2))
    (ew1 ew2 : Option (List (Fin d → ℚ))) (k : ℕ)
    (s : (Fin n1 → Fin d → ℚ) × (Fin n2 → Fin d → ℚ)) :
    net.loop A ei1 ei2 ew1 ew2 k s =
      (fun p => net.gmnlayer.forward A p.1 p.2 ei1 ei2 ew1 ew2)^[k] s := by
  induction k generalizing s with
  | zero => rfl
  | succ k ih =>
      rw [GMNnet.loop, ih, Function.iterate_succ_apply]

/-- C2: `GMNnet.forward` maps the node indices of both graphs through the
same embedding table `net.embed`, applies the single shared-weight `GMNlayer`
exactly `net.numLayers` times (with the edge weights embedded from
`edge_attr` when present, else `None`), and pools each graph with the learned
gated attention pooling, returning the pair `(hg1, hg2)`. -/
theorem gmnnet_forward_embeds_iterates_pools (net : GMNnet v d) (A : Act)
    (x1 : Fin n1 → Fin v) (x2 : Fin n2 → Fin v)
    (ei1 : List (Fin n1 × Fin n1)) (ei2 : List (Fin n2 × Fin n2))
    (ea : Option (List (Fin 20) × List (Fin 20))) :
    net.forward A x1 x2 ei1 ei2 ea =
      (let ew1 := ea.map (fun p => p.1.map (fun a => net.edge_embed a))
       let ew2 := ea.map (fun p => p.2.map (fun a => net.edge_embed a))
       let h := (fun p => net.gmnlayer.forward A p.1 p.2 ei1 ei2 ew1 ew2)^[net.numLayers]
         (fun i => net.embed (x1 i), fun j => net.embed (x2 j))
       (globalAttention A net.gateW net.gateB h.1 (fun _ => (0 : Fin 1)),
        globalAttention A net.gateW net.gateB h.2 (fun _ => (0 : Fin 1)))) := by
  simp only [GMNnet.forward]
  rw [loop_eq_iterate]

/-- C8: the `GMNnet.forward` pipeline runs embedding lookup, then the
iterated message-passing/update loop, then graph-level pooling, and each
output is a single `[1, d]` row — the pooling batch vector assigns every node
to graph `0`, so for any node counts `N1`, `N2` the row is the gated
softmax-weighted sum over all nodes of the respective graph. -/
theorem gmnnet_pipeline_fixed_size (net : GMNnet v d) (A : Act)
    (x1 : Fin n1 → Fin v) (x2 : Fin n2 → Fin v)
    (ei1 : List (Fin n1 × Fin n1)) (ei2 : List (Fin n2 × Fin n2))
    (ea : Option (List (Fin 20) × List (Fin 20))) :
    net.forward A x1 x2 ei1 ei2 ea =
      (let h := net.loop A ei1 ei2
         (ea.map (fun p => p.1.map (fun a => net.edge_embed a)))
         (ea.map (fun p => p.2.map (fun a => net.edge_embed a)))
         net.numLayers (fun i => net.embed (x1 i), fun j => net.embed (x2 j))
       (fun (_ : Fin 1) k => ∑ i,
          (A.exp (gateScore A net.gateW net.gateB (h.1 i)) /
            ∑ i', A.exp (gateScore A net.gateW net.gateB (h.1 i'))) * h.1 i k,
        fun (_ : Fin 1) k => ∑ j,
          (A.exp (gateScore A net.gateW net.gateB (h.2 j)) /
            ∑ j', A.exp (gateScore A net.gateW net.gateB (h.2 j'))) * h.2 j k)) := by
  simp only [GMNnet.forward]
  apply Prod.ext <;> funext g k <;>
    simp [globalAttention, eq_iff_true_of_subsingleton]

/-- C6: `GGNN.forward` embeds the node tokens of the single input graph,
applies the standard gated graph convolution — constructed to run
`numLayers` propagation steps — to the embedded nodes, and pools the result
to a single graph-level vector with the learned gated attention pooling. -/
theorem ggnn_forward_embeds_convolves_pools (net : GGNN v d) (A : Act)
    (x : Fin n → Fin v) (ei : List (Fin n × Fin n))
    (ea : Option (List (Fin 20))) :
    net.forward A x ei ea =
      globalAttention A net.gateW net.gateB
        ((List.finRange net.ggnnlayer.numLayers).foldl
          (net.ggnnlayer.step A ei) (fun i => net.embed (x i)))
        (fun _ => (0 : Fin 1)) := rfl

/-- C7: the output of `GGNN.forward` does not depend on `edge_attr`: for any
two values of that argument (both `None` or lists of valid indices below 20)
the returned graph embedding is identical, because the computed edge-weight
embedding is never passed to the convolution or the pooling. -/
theorem ggnn_forward_ignores_edge_attr (net : GGNN v d) (A : Act)
    (x : Fin n → Fin v) (ei : List (Fin n × Fin n))
    (ea ea' : Option (List (Fin 20))) :
    net.forward A x ei ea = net.forward A x ei ea' := rfl

end Models
